import Mathlib

/-!
Verification of the `xchainer` numerical-gradient check
(`src/xchainer/gradient_check.cc`) against its specification.

Shallow-embedding conventions:

* An `Array` is embedded as `Arr`: shape, dtype, flattened element buffer,
  and an optional graph-node reference.  Element values of every floating
  dtype are idealized as exact rationals (`ℚ`); machine rounding of the
  ordinary arithmetic (`+`, `-`, `*`, `/`, accumulation) is not modelled.
  The one precision-relevant conversion that the source spells out
  explicitly — the `static_cast<float>` applied to the eps scalar inside
  the `eval` closure (gradient_check.cc:179) — is modelled faithfully by
  `roundTo 24`, IEEE round-to-nearest-even to a 24-bit significand
  (exponent range unbounded: overflow and subnormals do not arise for the
  magnitudes involved).  The `float` multiplier is only ever `±1`, for
  which the `float * float` product is exact, so no second rounding is
  modelled there.
* `Scalar` is embedded as its rational value; the dtype tag is observable
  only in the result of `Norm`, where it is kept explicitly as a pair.
* Fallible code (`throw`, `assert(false)`, `.at` bounds checks) is
  embedded in the `Except Err` monad.  A C++ `assert(false)` is the
  `Err.fatalAssertion` outcome (debug semantics, per spec §7).
* Out-of-bounds raw-pointer reads/writes are undefined behaviour in the
  source; the embedding totalizes them with `List.getD` / `List.set`
  (read 0 / no-op).  No claim exercises those situations.
* Types that live outside the repository (the `Array` constructors
  `EmptyLike`/`ZerosLike`/`FullLike`, `Array::operator*`, the `Dtype`
  enum, `AllClose`, the backprop engine, the `Array` copy constructor)
  are modelled from the spec; each such definition's doc comment says so.
-/

namespace GradientCheck

/-- Modelled from the spec: the external `Dtype` enum.  The spec (§4.2, §7)
needs the two supported floating-point kinds plus at least one kind outside
the supported floating-point set (the real enum has several integral kinds;
one representative, `nonFloat`, suffices for the dispatch behaviour). -/
inductive Dtype where
  | float32
  | float64
  | nonFloat
deriving DecidableEq, Repr

/-- Embedding of `xchainer::Array` as used by gradient_check.cc: shape,
dtype, flattened contiguous element buffer (values idealized as `ℚ`), and
an optional reference to the graph node that produced the array
(`ArrayNode` is external; only the identity of the reference matters). -/
structure Arr where
  shape : List Nat
  dtype : Dtype
  data : List ℚ
  node : Option Nat
deriving DecidableEq, Repr

instance : Inhabited Arr := ⟨⟨[], Dtype.float32, [], none⟩⟩

/-- `total_size()` of an array: the length of the flattened buffer. -/
def Arr.totalSize (a : Arr) : Nat := a.data.length

/-- The error outcomes of gradient_check.cc: `XchainerError` (thrown at
gradient_check.cc:159,164,167), `std::invalid_argument` (line 217),
`AssertionError` (line 232), a failed C++ `assert` (lines 119,136,146),
and the spec §7 "Missing-gradient" failure (line 227 dereferences an
absent gradient). -/
inductive Err where
  | xchainerError (msg : String)
  | invalidArgument (msg : String)
  | assertionError (msg : String)
  | fatalAssertion
  | missingGradient
deriving DecidableEq, Repr

/-- Modelled from the spec (§6): `Array::EmptyLike` — a new array with the
given array's shape and dtype and an uninitialized buffer of the same
total size.  Uninitialized contents are represented as zeros; every claim
that reads them first overwrites them. -/
def EmptyLike (a : Arr) : Arr := ⟨a.shape, a.dtype, List.replicate a.data.length 0, none⟩

/-- Modelled from the spec (§6): `Array::ZerosLike`. -/
def ZerosLike (a : Arr) : Arr := ⟨a.shape, a.dtype, List.replicate a.data.length 0, none⟩

/-- Modelled from the spec (§6): `Array::FullLike` — constant-filled. -/
def FullLike (a : Arr) (v : ℚ) : Arr := ⟨a.shape, a.dtype, List.replicate a.data.length v, none⟩

/-- Modelled from the spec (§4.1, §6): `Array::operator*` from the external
array module — the elementwise product. -/
def mulArr (x y : Arr) : Arr := ⟨x.shape, x.dtype, List.zipWith (· * ·) x.data y.data, none⟩

/-- `Subtract(lhs, rhs, out)` (gradient_check.cc:38): writes
`lhs[i] - rhs[i]` into `out` for every flat index `i < lhs.total_size()`,
leaving any further elements of `out` unchanged. -/
def Subtract (lhs rhs out : Arr) : Arr :=
  { out with data :=
      List.zipWith (· - ·) lhs.data rhs.data ++
        out.data.drop (min lhs.data.length rhs.data.length) }

/-- `Divide(lhs, rhs, out)` (gradient_check.cc:53). -/
def Divide (lhs rhs out : Arr) : Arr :=
  { out with data :=
      List.zipWith (· / ·) lhs.data rhs.data ++
        out.data.drop (min lhs.data.length rhs.data.length) }

/-- `operator-(lhs, rhs)` (gradient_check.cc:84): `Subtract` into a fresh
`EmptyLike(lhs)`. -/
def subArr (lhs rhs : Arr) : Arr := Subtract lhs rhs (EmptyLike lhs)

/-- `operator/(lhs, rhs)` (gradient_check.cc:90). -/
def divArr (lhs rhs : Arr) : Arr := Divide lhs rhs (EmptyLike lhs)

/-- `Identity(inputs)` (gradient_check.cc:96/68): each output is an
`EmptyLike` of the input whose buffer receives a `MemoryCopy` of the
input's buffer.  The graph wiring (one shared `"identity"` op node,
`RenewNode`, `set_next_node`) manipulates the external `OpNode` /
`ArrayNode` types; since the differentiation engine is abstracted
(spec §6), only the data copy is observable in this embedding. -/
def Identity (inputs : List Arr) : List Arr :=
  inputs.map fun a => { EmptyLike a with data := a.data }

/-- `SumImpl<T>` (gradient_check.cc:103): the running-sum loop
`s = 0; for i: s += data[i]`. -/
def SumImpl (l : List ℚ) : ℚ := l.foldl (· + ·) 0

/-- `Sum(x)` (gradient_check.cc:113): dtype-dispatched `SumImpl`;
`assert(false)` on a dtype outside the supported floating-point set. -/
def Sum (x : Arr) : Except Err ℚ :=
  match x.dtype with
  | Dtype.float32 => Except.ok (SumImpl x.data)
  | Dtype.float64 => Except.ok (SumImpl x.data)
  | Dtype.nonFloat => Except.error Err.fatalAssertion

/-- `Norm(x)` (gradient_check.cc:123): `sqrt(Sum(x*x))`, the square root
taken in double precision (idealized as the exact real square root, which
is why this one definition is noncomputable), returned tagged with `x`'s
dtype. -/
noncomputable def Norm (x : Arr) : Except Err (ℝ × Dtype) :=
  match Sum (mulArr x x) with
  | Except.ok s => Except.ok (Real.sqrt ((s : ℚ) : ℝ), x.dtype)
  | Except.error e => Except.error e

/-- `VectorDot(x, y)` (gradient_check.cc:128): `Sum(x * y)`. -/
def VectorDot (x y : Arr) : Except Err ℚ := Sum (mulArr x y)

/-- `Set(out, flat_index, value)` (gradient_check.cc:130): dtype-dispatched
single-element store; `assert(false)` on an unsupported dtype. -/
def Set (out : Arr) (flatIndex : Nat) (value : ℚ) : Except Err Arr :=
  match out.dtype with
  | Dtype.float32 => Except.ok { out with data := out.data.set flatIndex value }
  | Dtype.float64 => Except.ok { out with data := out.data.set flatIndex value }
  | Dtype.nonFloat => Except.error Err.fatalAssertion

/-- `Get(out, flat_index)` (gradient_check.cc:140): dtype-dispatched
single-element load; `assert(false)` on an unsupported dtype. -/
def Get (out : Arr) (flatIndex : Nat) : Except Err ℚ :=
  match out.dtype with
  | Dtype.float32 => Except.ok (out.data.getD flatIndex 0)
  | Dtype.float64 => Except.ok (out.data.getD flatIndex 0)
  | Dtype.nonFloat => Except.error Err.fatalAssertion

/-! ### Binary32 significand rounding

`roundTo p q` rounds the rational `q` to `p` significand bits with
round-to-nearest, ties-to-even — the value semantics of the C++
`static_cast<float>` (`p = 24`) for magnitudes inside the binary32
exponent range.  `floorLog2 q` is the exponent `e` with
`2 ^ e ≤ q < 2 ^ (e + 1)` for `q > 0`. -/

/-- Binary exponent of a positive rational, via `Nat.log2` of numerator and
denominator with a one-step correction. -/
def floorLog2 (q : ℚ) : ℤ :=
  let a := q.num.natAbs
  let b := q.den
  let e0 : ℤ := (Nat.log2 a : ℤ) - (Nat.log2 b : ℤ)
  if 0 ≤ e0 then
    (if (2 ^ e0.toNat) * b ≤ a then e0 else e0 - 1)
  else
    (if b ≤ 2 ^ (-e0).toNat * a then e0 else e0 - 1)

/-- `2 ^ e` as a rational, for an integer exponent. -/
def twoPow (e : ℤ) : ℚ :=
  if 0 ≤ e then ((2 ^ e.toNat : ℕ) : ℚ) else 1 / ((2 ^ (-e).toNat : ℕ) : ℚ)

/-- Round-to-nearest-ties-to-even of the fraction `n / D` (both natural),
returned as the chosen integer: `n / D` rounded, computed from the
quotient and remainder. -/
def rnte (n D : Nat) : Nat :=
  let lo := n / D
  if 2 * (n % D) < D then lo
  else if D < 2 * (n % D) then lo + 1
  else if lo % 2 = 0 then lo else lo + 1

/-- Round a positive rational to `p` significand bits, nearest, ties to
even: with `e = floorLog2 q`, the significand `q / 2 ^ (e - p + 1)` is
rounded to the nearest integer (ties to even) and re-scaled. -/
def roundPosSig (p : Nat) (q : ℚ) : ℚ :=
  let n : Nat := q.num.toNat
  let d : Nat := q.den
  let s : ℤ := floorLog2 q - ((p : ℤ) - 1)
  if 0 ≤ s then
    ((rnte n (d * 2 ^ s.toNat) * 2 ^ s.toNat : ℕ) : ℚ)
  else
    ((rnte (n * 2 ^ (-s).toNat) d : ℕ) : ℚ) / ((2 ^ (-s).toNat : ℕ) : ℚ)

/-- Round a rational to `p` significand bits (round to nearest, ties to
even, unbounded exponent range). -/
def roundTo (p : Nat) (q : ℚ) : ℚ :=
  if q = 0 then 0
  else if 0 < q then roundPosSig p q
  else -roundPosSig p (-q)

/-! ### The numerical gradient estimator -/

/-- Modelled from the spec (§9 and the source comment at
gradient_check.cc:175-177): the external `Array` copy constructor performs
a deep copy of the element buffer while retaining the computational-graph
connection to the original ("currently xs and inputs are connected with
the computational graph").  In the pure embedding the buffer copy is
invisible; the retained graph-node reference is the observable part. -/
def deepCopy (a : Arr) : Arr := a

/-- The input set with element `k` of input `i` incremented by `d` — the
observable effect of the perturbation in the `eval` closure, and the
building block of the spec formula (§4.3: "adds `eps * multiplier` ... to
the one targeted element"). -/
def nudge (inputs : List Arr) (i k : Nat) (d : ℚ) : List Arr :=
  let a := inputs.getD i default
  inputs.set i { a with data := a.data.set k (a.data.getD k 0 + d) }

/-- The `eval` closure (gradient_check.cc:174-181): deep-copy the inputs,
add `Scalar(static_cast<float>(eps_scalar) * multiplier, dtype)` to the
targeted element via `Get`/`Set`, and apply `func` to the copy.  The
`static_cast<float>` is `roundTo 24`; the `float` multiplier is `±1` at
both call sites, for which the product is exact, so no second rounding is
modelled.  The `dtype` tag attached to the perturbation scalar is
value-irrelevant in the idealized model. -/
def evalPerturbed (func : List Arr → List Arr) (inputs : List Arr) (dtype : Dtype)
    (iIn k : Nat) (epsScalar mult : ℚ) : Except Err (List Arr) := do
  let xs := inputs.map deepCopy
  let xi := xs.getD iIn default
  let old ← Get xi k
  let xi2 ← Set xi k (old + roundTo 24 epsScalar * mult)
  pure (func (xs.set iIn xi2))

/-- The eps-validation loop of `CalculateNumericalGradient`
(gradient_check.cc:162-170): for each `i` in order, first the shape check,
then the dtype check.  The loop runs over `i < nin` after `eps.size() ==
nin` has been established, so the list recursion visits exactly the same
pairs. -/
def validateEps : List Arr → List Arr → Except Err Unit
  | a :: as, e :: es =>
    if a.shape ≠ e.shape then Except.error (Err.xchainerError "Invalid eps shape")
    else if a.dtype ≠ e.dtype then Except.error (Err.xchainerError "Invalid eps dtype")
    else validateEps as es
  | _, _ => Except.ok ()

/-- The inner `j` loop of `CalculateNumericalGradient`
(gradient_check.cc:195-200): for each output index `j < nout`, accumulate
`VectorDot((ys1[j] - ys0[j]) / denom, grad_outputs[j])` into element `k`
of the gradient accumulator via `Get`/`Set`.  The recursion follows
`grad_outputs`; the bounds-checked `ys0.at(j)` / `ys1.at(j)` throw
`std::out_of_range` when `func` produced fewer outputs than `nout`.
The unused local `Array dy = ys1.at(j) - ys0.at(j)` of line 196 is pure
and dead, and is not reproduced. -/
def accumJ (denom : Arr) (k : Nat) : List Arr → List Arr → List Arr → Arr → Except Err Arr
  | _, _, [], gradI => Except.ok gradI
  | y0 :: t0, y1 :: t1, _w :: tw, gradI => do
    let g ← VectorDot (divArr (subArr y1 y0) denom) _w
    let cur ← Get gradI k
    let gradI2 ← Set gradI k (cur + g)
    accumJ denom k t0 t1 tw gradI2
  | _, _, _ :: _, _ => Except.error (Err.invalidArgument "vector out_of_range")

/-- One iteration of the `in_flat_index` loop
(gradient_check.cc:188-201): read the eps scalar, run the two perturbed
evaluations (multiplier `-1` then `+1`), form
`denom = FullLike(eps_i, Get(eps_i, k)) * FullLike(eps_i, 2)`, and run the
`j` accumulation loop. -/
def stepK (func : List Arr → List Arr) (inputs gradOutputs : List Arr) (dtype : Dtype)
    (i : Nat) (epsI : Arr) (gradI : Arr) (k : Nat) : Except Err Arr := do
  let epsScalar ← Get epsI k
  let ys0 ← evalPerturbed func inputs dtype i k epsScalar (-1)
  let ys1 ← evalPerturbed func inputs dtype i k epsScalar 1
  let e2 ← Get epsI k
  let denom := mulArr (FullLike epsI e2) (FullLike epsI 2)
  accumJ denom k ys0 ys1 gradOutputs gradI

/-- Sequential threading of the gradient accumulator through the
`in_flat_index` loop. -/
def kLoop (step : Arr → Nat → Except Err Arr) : Arr → List Nat → Except Err Arr
  | g, [] => Except.ok g
  | g, k :: ks => do
    let g2 ← step g k
    kLoop step g2 ks

/-- Sequential collection of the per-input gradient arrays (the outer `i`
loop, gradient_check.cc:184-203). -/
def gradLoop (sweep : Nat → Except Err Arr) : List Nat → Except Err (List Arr)
  | [] => Except.ok []
  | i :: rest => do
    let g ← sweep i
    let gs ← gradLoop sweep rest
    pure (g :: gs)

/-- `CalculateNumericalGradient(func, inputs, grad_outputs, eps)`
(gradient_check.cc:151-206): eps count check, eps shape/dtype checks, then
for each input a zero-initialized gradient accumulator swept over every
flat element index. -/
def CalculateNumericalGradient (func : List Arr → List Arr)
    (inputs gradOutputs eps : List Arr) : Except Err (List Arr) := do
  if eps.length ≠ inputs.length then
    throw (Err.xchainerError "Invalid number of eps arrays")
  validateEps inputs eps
  let dtype := (inputs.getD 0 default).dtype
  gradLoop (fun i =>
    kLoop (stepK func inputs gradOutputs dtype i (eps.getD i default))
      (ZerosLike (inputs.getD i default))
      (List.range (ZerosLike (inputs.getD i default)).totalSize))
    (List.range inputs.length)

/-! ### The backward-check orchestrator -/

/-- Modelled from the spec (§6): `AllClose(a, b, atol, rtol)` — elementwise
`|a - b| <= atol + rtol * |b|`, reduced by logical AND. -/
def AllCloseQ (a b : Arr) (atol rtol : ℚ) : Bool :=
  (List.zipWith (fun x y => decide (|x - y| ≤ atol + rtol * |y|)) a.data b.data).all id

/-- The collection `*input.grad()` of the analytic gradients
(gradient_check.cc:226-227).  Modelled from the spec (§7
"Missing-gradient"): dereferencing an absent gradient propagates as a
failure rather than defaulting to zero. -/
def derefAll : List (Option Arr) → Except Err (List Arr)
  | [] => Except.ok []
  | some a :: rest => do
    let as ← derefAll rest
    pure (a :: as)
  | none :: _ => Except.error Err.missingGradient

/-- The comparison loop of `CheckBackwardComputation`
(gradient_check.cc:230-234): for each input in order, `AllClose` of the
analytic against the numerical gradient; the first failure raises
`AssertionError("too large errors")`. -/
def compareLoop (atol rtol : ℚ) : List Arr → List Arr → Except Err Unit
  | [], _ => Except.ok ()
  | b :: bs, n :: ns =>
    if AllCloseQ b n atol rtol then compareLoop atol rtol bs ns
    else Except.error (Err.assertionError "too large errors")
  | _ :: _, [] => Except.ok ()

/-- `CheckBackwardComputation` (gradient_check.cc:208-235).  Seeding the
output gradients (step 3 of spec §4.5), triggering `Backward` (step 4) and
reading back each input's populated gradient (step 5) all act on the
external graph state; they are modelled from the spec as one abstract
`engine` from `(inputs, grad_outputs)` to the per-input optional analytic
gradients, dereferenced by `derefAll`. -/
def CheckBackwardComputation (engine : List Arr → List Arr → List (Option Arr))
    (func : List Arr → List Arr) (inputs gradOutputs eps : List Arr)
    (atol rtol : ℚ) : Except Err Unit := do
  let outputs := Identity (func inputs)
  if outputs.length ≠ gradOutputs.length then
    throw (Err.invalidArgument
      "Number of given output gradients does not match the actual number of outputs")
  let backwardGrads ← derefAll (engine inputs gradOutputs)
  let numericalGrads ← CalculateNumericalGradient func inputs gradOutputs eps
  compareLoop atol rtol backwardGrads numericalGrads

/-! ### Spec-side formulas (written from the spec's words, for the
refinement claims) -/

/-- The vector dot product of two flattened buffers (spec §4.1:
"Sum(elementwise product of x and y)"). -/
def dotSpec (x y : Arr) : ℚ := (List.zipWith (· * ·) x.data y.data).sum

/-- Spec §4.4 step 4: the central-difference quotient
`(ys1[j] - ys0[j]) / (2e)` projected onto `gradOutputs[j]` by vector dot
product. -/
def specContribution (e : ℚ) (y0 y1 w : Arr) : ℚ :=
  (List.zipWith (· * ·)
    (List.zipWith (fun a b => (b - a) / (2 * e)) y0.data y1.data) w.data).sum

/-- Spec §4.4 (claim C1), parametrized by the applied nudge `delta e`:
the sum over all output indices `j` of the contribution of output `j`,
with the function evaluated at the input set nudged by `-delta e` and by
`+delta e` at element `k` of input `i`. -/
def specNumGradEntryWith (delta : ℚ → ℚ) (func : List Arr → List Arr)
    (inputs gos eps : List Arr) (i k : Nat) : ℚ :=
  let e := (eps.getD i default).data.getD k 0
  let ys0 := func (nudge inputs i k (-delta e))
  let ys1 := func (nudge inputs i k (delta e))
  ((List.range gos.length).map fun j =>
    specContribution e (ys0.getD j default) (ys1.getD j default) (gos.getD j default)).sum

/-- The claim C1 formula verbatim: the nudge is exactly `eps[i][k]`. -/
def specNumGradEntry : (List Arr → List Arr) → List Arr → List Arr → List Arr → Nat → Nat → ℚ :=
  specNumGradEntryWith id

/-- The amended C1 formula: the nudge is `eps[i][k]` rounded to a 24-bit
significand (the `static_cast<float>` of gradient_check.cc:179). -/
def specNumGradEntryF32 : (List Arr → List Arr) → List Arr → List Arr → List Arr → Nat → Nat → ℚ :=
  specNumGradEntryWith (roundTo 24)

/-! ### Monad and list toolkit -/

theorem bindOk {α β : Type} (a : α) (f : α → Except Err β) :
    (Except.ok a >>= f) = f a := rfl

theorem bindErr {α β : Type} (e : Err) (f : α → Except Err β) :
    ((Except.error e : Except Err α) >>= f) = Except.error e := rfl

theorem pureOk {α : Type} (a : α) : (pure a : Except Err α) = Except.ok a := rfl

theorem throwErr {α : Type} (e : Err) : (throw e : Except Err α) = Except.error e := rfl

theorem getD_set_self {α : Type _} (l : List α) (k : Nat) (v d : α) (h : k < l.length) :
    (l.set k v).getD k d = v := by
  have hk : k < (l.set k v).length := by simpa using h
  rw [List.getD_eq_getElem _ _ hk]
  exact List.getElem_set_self hk

theorem getD_set_ne {α : Type _} (l : List α) (j k : Nat) (v d : α) (h : j ≠ k) :
    (l.set j v).getD k d = l.getD k d := by
  by_cases hk : k < l.length
  · have hk2 : k < (l.set j v).length := by simpa using hk
    rw [List.getD_eq_getElem _ _ hk2, List.getD_eq_getElem _ _ hk]
    exact List.getElem_set_ne h hk2
  · have h1 : l.length ≤ k := Nat.le_of_not_lt hk
    have h2 : (l.set j v).length ≤ k := by simpa using h1
    rw [List.getD_eq_default _ _ h1, List.getD_eq_default _ _ h2]

theorem set_getD_self {α : Type _} (l : List α) (k : Nat) (d : α) :
    l.set k (l.getD k d) = l := by
  induction l generalizing k with
  | nil => rfl
  | cons a t ih =>
    cases k with
    | zero => rfl
    | succ k => simpa [List.set, List.getD] using ih k

theorem getD_zipWith {α : Type _} (f : α → α → α) (a b : List α) (i : Nat) (d : α)
    (ha : i < a.length) (hb : i < b.length) :
    (List.zipWith f a b).getD i d = f (a.getD i d) (b.getD i d) := by
  have hz : i < (List.zipWith f a b).length := by
    rw [List.length_zipWith]
    exact lt_min ha hb
  rw [List.getD_eq_getElem _ _ hz, List.getD_eq_getElem _ _ ha, List.getD_eq_getElem _ _ hb]
  exact List.getElem_zipWith

theorem getD_replicate {α : Type _} (v d : α) (n i : Nat) (h : i < n) :
    (List.replicate n v).getD i d = v := by
  have hi : i < (List.replicate n v).length := by simpa using h
  rw [List.getD_eq_getElem _ _ hi]
  exact List.getElem_replicate _ hi

/-! ### Accessor characterizations -/

theorem Get_ok (a : Arr) (i : Nat) (h : a.dtype ≠ Dtype.nonFloat) :
    Get a i = Except.ok (a.data.getD i 0) := by
  rcases ha : a.dtype <;> simp [Get, ha] <;> exact absurd ha h

theorem Set_ok (a : Arr) (i : Nat) (v : ℚ) (h : a.dtype ≠ Dtype.nonFloat) :
    Set a i v = Except.ok { a with data := a.data.set i v } := by
  rcases ha : a.dtype <;> simp [Set, ha] <;> exact absurd ha h

theorem Sum_ok (a : Arr) (h : a.dtype ≠ Dtype.nonFloat) :
    Sum a = Except.ok a.data.sum := by
  have hs : SumImpl a.data = a.data.sum := (List.sum_eq_foldl).symm
  rcases ha : a.dtype <;> simp [Sum, ha, hs] <;> exact absurd ha h

theorem VectorDot_ok (x y : Arr) (hx : x.dtype ≠ Dtype.nonFloat) :
    VectorDot x y = Except.ok (dotSpec x y) := by
  have hd : (mulArr x y).dtype = x.dtype := rfl
  rw [VectorDot, Sum_ok _ (by rw [hd]; exact hx)]
  rfl

theorem evalPerturbed_ok (func : List Arr → List Arr) (inputs : List Arr) (dt : Dtype)
    (i k : Nat) (e m : ℚ) (h : (inputs.getD i default).dtype ≠ Dtype.nonFloat) :
    evalPerturbed func inputs dt i k e m =
      Except.ok (func (nudge inputs i k (roundTo 24 e * m))) := by
  have hmap : ∀ l : List Arr, l.map deepCopy = l := by
    intro l
    induction l with
    | nil => rfl
    | cons a t ih => simp [List.map_cons, ih, deepCopy]
  rw [evalPerturbed, hmap]
  rw [Get_ok _ _ h, bindOk, Set_ok _ _ _ h, bindOk]
  rfl

/-! ### Characterizing the inner loops of `CalculateNumericalGradient` -/

/-- The value accumulated by one iteration of the `j` loop. -/
def codeContrib (denom y0 y1 w : Arr) : ℚ := dotSpec (divArr (subArr y1 y0) denom) w

/-- The total accumulated by the `j` loop over aligned output triples. -/
def contribSum (denom : Arr) : List Arr → List Arr → List Arr → ℚ
  | y0 :: t0, y1 :: t1, w :: tw => codeContrib denom y0 y1 w + contribSum denom t0 t1 tw
  | _, _, _ => 0

/-- The eps scalar read for element `k` of input `i`. -/
def epsAt (eps : List Arr) (i k : Nat) : ℚ := (eps.getD i default).data.getD k 0

/-- The denominator array built for element `k` of input `i`. -/
def denomAt (eps : List Arr) (i k : Nat) : Arr :=
  mulArr (FullLike (eps.getD i default) (epsAt eps i k)) (FullLike (eps.getD i default) 2)

/-- The outputs of the perturbed evaluation with multiplier `m`. -/
def ysm (func : List Arr → List Arr) (inputs eps : List Arr) (i k : Nat) (m : ℚ) : List Arr :=
  func (nudge inputs i k (roundTo 24 (epsAt eps i k) * m))

/-- The total contribution accumulated into `gradient[i][k]`. -/
def Fval (func : List Arr → List Arr) (inputs gos eps : List Arr) (i k : Nat) : ℚ :=
  contribSum (denomAt eps i k) (ysm func inputs eps i k (-1)) (ysm func inputs eps i k 1) gos

theorem accumJ_ok (denom : Arr) (k : Nat) :
    ∀ (gos ys0 ys1 : List Arr) (gradI : Arr),
      gradI.dtype ≠ Dtype.nonFloat → k < gradI.data.length →
      ys0.length = gos.length → ys1.length = gos.length →
      (∀ y ∈ ys1, y.dtype ≠ Dtype.nonFloat) →
      accumJ denom k ys0 ys1 gos gradI =
        Except.ok
          { gradI with
            data := gradI.data.set k (gradI.data.getD k 0 + contribSum denom ys0 ys1 gos) } := by
  intro gos
  induction gos with
  | nil =>
    intro ys0 ys1 gradI _ hk h0 h1 _
    rw [List.length_eq_zero.mp h0, List.length_eq_zero.mp h1]
    show Except.ok gradI = _
    rw [show contribSum denom [] [] [] = 0 from rfl, add_zero, set_getD_self _ _ _]
  | cons w tw ih =>
    intro ys0 ys1 gradI hgd hk h0 h1 hy1
    rcases ys0 with _ | ⟨y0, t0⟩
    · exact absurd h0 (by simp)
    rcases ys1 with _ | ⟨y1, t1⟩
    · exact absurd h1 (by simp)
    have hy1d : y1.dtype ≠ Dtype.nonFloat := hy1 y1 (by simp)
    have hq : (divArr (subArr y1 y0) denom).dtype ≠ Dtype.nonFloat := hy1d
    rw [accumJ, VectorDot_ok _ _ hq, bindOk, Get_ok _ _ hgd, bindOk, Set_ok _ _ _ hgd, bindOk]
    have h2 := ih t0 t1
      { gradI with
        data := gradI.data.set k (gradI.data.getD k 0 + dotSpec (divArr (subArr y1 y0) denom) w) }
      hgd (by simpa using hk) (by simpa using h0) (by simpa using h1)
      (fun y hy => hy1 y (by simp [hy]))
    rw [h2]
    have hset : (gradI.data.set k
        (gradI.data.getD k 0 + dotSpec (divArr (subArr y1 y0) denom) w)).getD k 0 =
        gradI.data.getD k 0 + dotSpec (divArr (subArr y1 y0) denom) w := getD_set_self _ _ _ _ hk
    simp only [hset, List.set_set]
    rw [show contribSum denom (y0 :: t0) (y1 :: t1) (w :: tw) =
      dotSpec (divArr (subArr y1 y0) denom) w + contribSum denom t0 t1 tw from rfl, add_assoc]

theorem stepK_ok (func : List Arr → List Arr) (inputs gos eps : List Arr) (dt : Dtype)
    (i : Nat)
    (hin : (inputs.getD i default).dtype ≠ Dtype.nonFloat)
    (heps : (eps.getD i default).dtype ≠ Dtype.nonFloat)
    (houtdt : ∀ xs y, y ∈ func xs → y.dtype ≠ Dtype.nonFloat)
    (hlenout : ∀ xs, (func xs).length = gos.length)
    (g : Arr) (k : Nat) (hgd : g.dtype ≠ Dtype.nonFloat) (hk : k < g.data.length) :
    stepK func inputs gos dt i (eps.getD i default) g k =
      Except.ok { g with data := g.data.set k (g.data.getD k 0 + Fval func inputs gos eps i k) } := by
  rw [stepK, Get_ok _ _ heps, bindOk, evalPerturbed_ok _ _ _ _ _ _ _ hin, bindOk,
    evalPerturbed_ok _ _ _ _ _ _ _ hin, bindOk, bindOk]
  exact accumJ_ok _ _ gos _ _ g hgd hk (hlenout _) (hlenout _) (fun y hy => houtdt _ y hy)

/-- The pure state transformer realized by one `in_flat_index` iteration. -/
def setStep (F : Nat → ℚ) (a : Arr) (k : Nat) : Arr :=
  { a with data := a.data.set k (a.data.getD k 0 + F k) }

theorem kLoop_ok (step : Arr → Nat → Except Err Arr) (F : Nat → ℚ) (d0 : Dtype) (n0 : Nat)
    (hstep : ∀ (g : Arr) (k : Nat), g.dtype = d0 → g.data.length = n0 → k < n0 →
      step g k = Except.ok (setStep F g k)) :
    ∀ (l : List Nat) (g : Arr), g.dtype = d0 → g.data.length = n0 → (∀ k ∈ l, k < n0) →
      kLoop step g l = Except.ok (l.foldl (setStep F) g) := by
  intro l
  induction l with
  | nil => intro g _ _ _; rfl
  | cons k ks ih =>
    intro g hgd hgl hmem
    rw [kLoop, hstep g k hgd hgl (hmem k (by simp)), bindOk]
    rw [ih (setStep F g k) hgd (by simpa [setStep] using hgl) (fun j hj => hmem j (by simp [hj]))]
    rfl

theorem foldl_setStep_length (F : Nat → ℚ) :
    ∀ (l : List Nat) (g : Arr), (l.foldl (setStep F) g).data.length = g.data.length := by
  intro l
  induction l with
  | nil => intro g; rfl
  | cons k ks ih => intro g; rw [List.foldl_cons, ih]; simp [setStep]

theorem foldl_setStep_dtype (F : Nat → ℚ) :
    ∀ (l : List Nat) (g : Arr), (l.foldl (setStep F) g).dtype = g.dtype := by
  intro l
  induction l with
  | nil => intro g; rfl
  | cons k ks ih => intro g; rw [List.foldl_cons, ih]; rfl

theorem foldl_setStep_shape (F : Nat → ℚ) :
    ∀ (l : List Nat) (g : Arr), (l.foldl (setStep F) g).shape = g.shape := by
  intro l
  induction l with
  | nil => intro g; rfl
  | cons k ks ih => intro g; rw [List.foldl_cons, ih]; rfl

theorem foldl_setStep_notmem (F : Nat → ℚ) (k : Nat) :
    ∀ (l : List Nat) (g : Arr), k ∉ l →
      (l.foldl (setStep F) g).data.getD k 0 = g.data.getD k 0 := by
  intro l
  induction l with
  | nil => intro g _; rfl
  | cons j js ih =>
    intro g hk
    rw [List.foldl_cons, ih _ (fun h => hk (by simp [h]))]
    exact getD_set_ne _ _ _ _ _ (fun h => hk (by simp [h]))

theorem foldl_setStep_mem (F : Nat → ℚ) (k : Nat) :
    ∀ (l : List Nat) (g : Arr), l.Nodup → k ∈ l → k < g.data.length →
      (l.foldl (setStep F) g).data.getD k 0 = g.data.getD k 0 + F k := by
  intro l
  induction l with
  | nil => intro g _ hk; exact absurd hk (by simp)
  | cons j js ih =>
    intro g hnd hk hlen
    have hnd2 := List.nodup_cons.mp hnd
    rw [List.foldl_cons]
    by_cases hkj : k = j
    · subst hkj
      rw [foldl_setStep_notmem F k js _ hnd2.1]
      exact getD_set_self _ _ _ _ hlen
    · rcases List.mem_cons.mp hk with h | h
      · exact absurd h hkj
      · rw [ih _ hnd2.2 h (by simpa [setStep] using hlen)]
        congr 1
        exact getD_set_ne _ _ _ _ _ (fun hh => hkj hh.symm)

theorem gradLoop_ok (sweep : Nat → Except Err Arr) (g : Nat → Arr) :
    ∀ l : List Nat, (∀ i ∈ l, sweep i = Except.ok (g i)) →
      gradLoop sweep l = Except.ok (l.map g) := by
  intro l
  induction l with
  | nil => intro _; rfl
  | cons i rest ih =>
    intro h
    rw [gradLoop, h i (by simp), bindOk, ih (fun j hj => h j (by simp [hj])), bindOk]
    rfl

/-! ### The eps validation -/

theorem validateEps_ok :
    ∀ inputs eps : List Arr,
      List.Forall₂ (fun a e => a.shape = e.shape ∧ a.dtype = e.dtype) inputs eps →
      validateEps inputs eps = Except.ok () := by
  intro inputs eps h
  induction h with
  | nil => rfl
  | cons hae _ ih =>
    rw [validateEps, if_neg (not_not_intro hae.1), if_neg (not_not_intro hae.2), ih]

theorem validateEps_err :
    ∀ inputs eps : List Arr, inputs.length = eps.length →
      (∃ i, i < inputs.length ∧
        ((inputs.getD i default).shape ≠ (eps.getD i default).shape ∨
         (inputs.getD i default).dtype ≠ (eps.getD i default).dtype)) →
      ∃ msg, validateEps inputs eps = Except.error (Err.xchainerError msg) := by
  intro inputs
  induction inputs with
  | nil =>
    intro eps _ h
    obtain ⟨i, hi, _⟩ := h
    exact absurd hi (by simp)
  | cons a as ih =>
    intro eps hlen h
    rcases eps with _ | ⟨e, es⟩
    · exact absurd hlen (by simp)
    by_cases hs : a.shape = e.shape
    · by_cases hd : a.dtype = e.dtype
      · obtain ⟨i, hi, hmis⟩ := h
        rcases i with _ | i
        · simp only [List.getD_cons_zero] at hmis
          rcases hmis with hm | hm
          · exact absurd hs hm
          · exact absurd hd hm
        · obtain ⟨msg, hmsg⟩ := ih es (by simpa using hlen)
            ⟨i, by simpa using hi, by simpa using hmis⟩
          refine ⟨msg, ?_⟩
          rw [validateEps, if_neg (not_not_intro hs), if_neg (not_not_intro hd), hmsg]
      · exact ⟨"Invalid eps dtype", by rw [validateEps, if_neg (not_not_intro hs), if_pos hd]⟩
    · exact ⟨"Invalid eps shape", by rw [validateEps, if_pos hs]⟩

/-! ### Assembling `CalculateNumericalGradient` -/

theorem forall2_getD {R : Arr → Arr → Prop} :
    ∀ l1 l2 : List Arr, List.Forall₂ R l1 l2 → ∀ i, i < l1.length →
      R (l1.getD i default) (l2.getD i default) := by
  intro l1 l2 h
  induction h with
  | nil => intro i hi; exact absurd hi (by simp)
  | cons hab _ ih =>
    intro i hi
    cases i with
    | zero => simpa using hab
    | succ i => simpa using ih i (by simpa using hi)

theorem getD_map_range {α : Type _} (g : Nat → α) (n i : Nat) (d : α) (h : i < n) :
    ((List.range n).map g).getD i d = g i := by
  have h1 : i < ((List.range n).map g).length := by simpa using h
  rw [List.getD_eq_getElem _ _ h1, List.getElem_map]
  rw [List.getElem_range]

theorem getD_mem {α : Type _} (l : List α) (i : Nat) (d : α) (h : i < l.length) :
    l.getD i d ∈ l := by
  rw [List.getD_eq_getElem _ _ h]
  exact List.getElem_mem h

/-- The gradient array produced for input `i`: the zero accumulator swept
by the per-element updates. -/
def gradArr (func : List Arr → List Arr) (inputs gos eps : List Arr) (i : Nat) : Arr :=
  (List.range (inputs.getD i default).data.length).foldl
    (setStep (Fval func inputs gos eps i)) (ZerosLike (inputs.getD i default))

theorem CNG_ok (func : List Arr → List Arr) (inputs gos eps : List Arr)
    (hmatch : List.Forall₂ (fun a e => a.shape = e.shape ∧ a.dtype = e.dtype) inputs eps)
    (hdtin : ∀ a ∈ inputs, a.dtype ≠ Dtype.nonFloat)
    (houtdt : ∀ xs y, y ∈ func xs → y.dtype ≠ Dtype.nonFloat)
    (hlenout : ∀ xs, (func xs).length = gos.length) :
    CalculateNumericalGradient func inputs gos eps =
      Except.ok ((List.range inputs.length).map (gradArr func inputs gos eps)) := by
  have hlen : eps.length = inputs.length := hmatch.length_eq.symm
  rw [CalculateNumericalGradient]
  simp only [hlen, ne_eq, not_true_eq_false, if_false, reduceIte,
    validateEps_ok _ _ hmatch, bindOk]
  refine gradLoop_ok _ _ _ (fun i hi => ?_)
  have hilt : i < inputs.length := List.mem_range.mp hi
  have hin : (inputs.getD i default).dtype ≠ Dtype.nonFloat :=
    hdtin _ (getD_mem _ _ _ hilt)
  have hpair := forall2_getD _ _ hmatch i hilt
  have heps : (eps.getD i default).dtype ≠ Dtype.nonFloat := by
    rw [← hpair.2]; exact hin
  have hsz : (ZerosLike (inputs.getD i default)).totalSize =
      (inputs.getD i default).data.length := by
    simp [ZerosLike, Arr.totalSize]
  rw [hsz]
  exact kLoop_ok _ (Fval func inputs gos eps i) (inputs.getD i default).dtype
    (inputs.getD i default).data.length
    (fun g k hgd hgl hk =>
      stepK_ok func inputs gos eps _ i hin heps houtdt hlenout g k (hgd ▸ hin) (hgl ▸ hk))
    _ _ rfl (by simp [ZerosLike]) (fun k hk => List.mem_range.mp hk)

theorem gradArr_entry (func : List Arr → List Arr) (inputs gos eps : List Arr) (i k : Nat)
    (hk : k < (inputs.getD i default).data.length) :
    (gradArr func inputs gos eps i).data.getD k 0 = Fval func inputs gos eps i k := by
  rw [gradArr, foldl_setStep_mem _ k _ _ (List.nodup_range _) (List.mem_range.mpr hk)
    (by simpa [ZerosLike] using hk)]
  rw [show (ZerosLike (inputs.getD i default)).data =
    List.replicate (inputs.getD i default).data.length 0 from rfl]
  rw [getD_replicate _ _ _ _ hk, zero_add]

/-! ### Relating the accumulated value to the spec formula -/

theorem quot_lists (e : ℚ) :
    ∀ (dw d0 d1 : List ℚ) (L : Nat), d0.length = dw.length → d1.length = dw.length →
      dw.length ≤ L →
      List.zipWith (· * ·)
        (List.zipWith (· / ·) (List.zipWith (· - ·) d1 d0) (List.replicate L (e * 2))) dw =
      List.zipWith (· * ·)
        (List.zipWith (fun a b => (b - a) / (2 * e)) d0 d1) dw := by
  intro dw
  induction dw with
  | nil => intro d0 d1 L _ _ _; simp
  | cons wv wt ih =>
    intro d0 d1 L h0 h1 hL
    rcases d0 with _ | ⟨a, t0⟩
    · exact absurd h0 (by simp)
    rcases d1 with _ | ⟨b, t1⟩
    · exact absurd h1 (by simp)
    rcases L with _ | Lp
    · exact absurd hL (by simp)
    rw [List.replicate_succ]
    simp only [List.zipWith_cons_cons]
    rw [ih t0 t1 Lp (by simpa using h0) (by simpa using h1) (by simpa using hL)]
    rw [show e * 2 = 2 * e from mul_comm e 2]

theorem codeContrib_eq_spec (e : ℚ) (L : Nat) (denom y0 y1 w : Arr)
    (hden : denom.data = List.replicate L (e * 2))
    (h0 : y0.data.length = w.data.length) (h1 : y1.data.length = w.data.length)
    (hL : w.data.length ≤ L) :
    codeContrib denom y0 y1 w = specContribution e y0 y1 w := by
  rw [codeContrib, dotSpec, specContribution]
  have hsub : (subArr y1 y0).data = List.zipWith (· - ·) y1.data y0.data := by
    simp [subArr, Subtract, EmptyLike, List.drop_replicate, h0, h1]
  have hq : (divArr (subArr y1 y0) denom).data =
      List.zipWith (· / ·) (List.zipWith (· - ·) y1.data y0.data) (List.replicate L (e * 2)) := by
    have hlen2 : (subArr y1 y0).data.length = w.data.length := by
      rw [hsub, List.length_zipWith, h0, h1]
      simp
    simp only [divArr, Divide, EmptyLike, hsub, hden, List.drop_replicate,
      List.length_zipWith, List.length_replicate]
    rw [show List.replicate
      (y1.data.length ⊓ y0.data.length - y1.data.length ⊓ y0.data.length ⊓ L) (0:ℚ) = [] by
        rw [h0, h1]
        have hmin : w.data.length ⊓ w.data.length ⊓ L = w.data.length := by
          rw [Nat.min_self, Nat.min_eq_left hL]
        rw [hmin, Nat.min_self, Nat.sub_self, List.replicate_zero]]
    rw [List.append_nil]
  rw [hq, quot_lists e w.data y0.data y1.data L h0 h1 hL]

theorem contribSum_eq_sum (e : ℚ) (denom : Arr) (L : Nat)
    (hden : denom.data = List.replicate L (e * 2)) :
    ∀ (gos ys0 ys1 : List Arr), ys0.length = gos.length → ys1.length = gos.length →
      (∀ j, j < gos.length →
        (ys0.getD j default).data.length = (gos.getD j default).data.length ∧
        (ys1.getD j default).data.length = (gos.getD j default).data.length ∧
        (gos.getD j default).data.length ≤ L) →
      contribSum denom ys0 ys1 gos =
        ((List.range gos.length).map fun j =>
          specContribution e (ys0.getD j default) (ys1.getD j default) (gos.getD j default)).sum := by
  intro gos
  induction gos with
  | nil =>
    intro ys0 ys1 h0 h1 _
    rw [List.length_eq_zero.mp h0, List.length_eq_zero.mp h1]
    rfl
  | cons w tw ih =>
    intro ys0 ys1 h0 h1 hsz
    rcases ys0 with _ | ⟨y0, t0⟩
    · exact absurd h0 (by simp)
    rcases ys1 with _ | ⟨y1, t1⟩
    · exact absurd h1 (by simp)
    have hhead := hsz 0 (by simp)
    simp only [List.getD_cons_zero] at hhead
    rw [show contribSum denom (y0 :: t0) (y1 :: t1) (w :: tw) =
      codeContrib denom y0 y1 w + contribSum denom t0 t1 tw from rfl]
    rw [codeContrib_eq_spec e L denom y0 y1 w hden hhead.1 hhead.2.1 hhead.2.2]
    rw [ih t0 t1 (by simpa using h0) (by simpa using h1)
      (fun j hj => by simpa using hsz (j + 1) (by simpa using hj))]
    rw [show (w :: tw).length = tw.length + 1 from rfl, List.range_succ_eq_map]
    simp [List.map_map, Function.comp_def]

theorem denomAt_data (eps : List Arr) (i k : Nat) :
    (denomAt eps i k).data =
      List.replicate (eps.getD i default).data.length (epsAt eps i k * 2) := by
  simp [denomAt, mulArr, FullLike, List.zipWith_replicate]

theorem Fval_eq_specF32 (func : List Arr → List Arr) (inputs gos eps : List Arr) (i k : Nat)
    (hlenout : ∀ xs, (func xs).length = gos.length)
    (hsz : ∀ xs j, j < gos.length →
      ((func xs).getD j default).data.length = (gos.getD j default).data.length)
    (hden : ∀ j, j < gos.length →
      (gos.getD j default).data.length ≤ (eps.getD i default).data.length) :
    Fval func inputs gos eps i k = specNumGradEntryF32 func inputs gos eps i k := by
  rw [Fval, contribSum_eq_sum (epsAt eps i k) _ (eps.getD i default).data.length
    (denomAt_data eps i k) gos _ _ (by rw [ysm]; exact hlenout _) (by rw [ysm]; exact hlenout _)
    (fun j hj => ⟨by rw [ysm]; exact hsz _ j hj, by rw [ysm]; exact hsz _ j hj, hden j hj⟩)]
  rw [specNumGradEntryF32, specNumGradEntryWith]
  simp only [ysm, mul_neg_one, mul_one, epsAt]

/-! ### Concrete evaluations of `roundTo` -/

theorem roundTo24_one : roundTo 24 (1 : ℚ) = 1 := by
  norm_num [roundTo, roundPosSig, floorLog2, Nat.log2]
  rw [show Int.toNat (23 : ℤ) = 23 from rfl]
  norm_num [show rnte 8388608 1 = 8388608 from by decide]

/-- `16777217 = 2 ^ 24 + 1` needs 25 significand bits: binary32 rounding
maps it to `2 ^ 24` (ties-to-even on the halfway significand). -/
theorem roundTo24_pow24succ : roundTo 24 (16777217 : ℚ) = 16777216 := by
  norm_num [roundTo, roundPosSig, floorLog2, Nat.log2]
  rw [show (if (2 : ℕ) ^ Int.toNat (24 : ℤ) ≤ 16777217 then (24 : ℤ) else 23) = 24 from rfl,
    show ((24 : ℤ) - 23).toNat = 1 from rfl,
    show Int.toNat 16777217 = 16777217 from rfl]
  norm_num [show rnte 16777217 2 = 8388608 from by decide]

/-! ### Concrete instances -/

/-- A one-element float64 input array. -/
def cInput : Arr := ⟨[1], Dtype.float64, [0], none⟩

/-- A one-element float64 upstream gradient. -/
def cGradOut : Arr := ⟨[1], Dtype.float64, [3], none⟩

/-- A one-element eps array whose value `2 ^ 24 + 1` is exactly
representable in binary64 but not in binary32. -/
def cEps : Arr := ⟨[1], Dtype.float64, [16777217], none⟩

/-- A one-element eps array with value 1 (exactly representable). -/
def cEpsOne : Arr := ⟨[1], Dtype.float64, [1], none⟩

/-- The function under test for the concrete instances: extract element 0
of input 0 as a one-element float64 output (an elementwise projection; on
one-element inputs it acts as the identity). -/
def cFunc : List Arr → List Arr :=
  fun xs => [⟨[1], Dtype.float64, [(xs.getD 0 default).data.getD 0 0], none⟩]

theorem range_one_eq : List.range 1 = [0] := rfl

theorem cFunc_outdt : ∀ xs y, y ∈ cFunc xs → y.dtype ≠ Dtype.nonFloat := by
  intro xs y hy
  rw [cFunc, List.mem_singleton] at hy
  subst hy
  exact fun h => Dtype.noConfusion h

theorem cFunc_lenout : ∀ xs : List Arr, (cFunc xs).length = ([cGradOut] : List Arr).length :=
  fun _ => rfl

theorem cFunc_sz : ∀ (xs : List Arr) (j : Nat), j < ([cGradOut] : List Arr).length →
    ((cFunc xs).getD j default).data.length =
      (([cGradOut] : List Arr).getD j default).data.length := by
  intro xs j hj
  have hj0 : j = 0 := Nat.lt_one_iff.mp (by simpa using hj)
  subst hj0
  rfl

/-! ### Claim C1 -/

/-- C1, counterexample: with a float64 input and `eps = 2 ^ 24 + 1`
(representable in binary64, not in binary32), `CalculateNumericalGradient`
does not return the claimed sum of central-difference dot products formed
with the exact nudge `±eps[i][k]`: the evaluator nudges by
`static_cast<float>(eps)` instead, so the computed entry is
`3 * 2 ^ 24 / (2 ^ 24 + 1)` while the claimed formula gives `3`. -/
theorem numericalGradient_exact_eps_formula_fails :
    ∃ grads, CalculateNumericalGradient cFunc [cInput] [cGradOut] [cEps] = Except.ok grads ∧
      (grads.getD 0 default).data.getD 0 0 ≠
        specNumGradEntry cFunc [cInput] [cGradOut] [cEps] 0 0 := by
  have hmatch : List.Forall₂ (fun a e => a.shape = e.shape ∧ a.dtype = e.dtype)
      [cInput] [cEps] := List.Forall₂.cons ⟨rfl, rfl⟩ List.Forall₂.nil
  have hden : ∀ j, j < ([cGradOut] : List Arr).length →
      (([cGradOut] : List Arr).getD j default).data.length ≤
        (([cEps] : List Arr).getD 0 default).data.length := by
    intro j hj
    have hj0 : j = 0 := Nat.lt_one_iff.mp (by simpa using hj)
    subst hj0
    exact le_refl _
  refine ⟨_, CNG_ok cFunc [cInput] [cGradOut] [cEps] hmatch (by decide) cFunc_outdt
    cFunc_lenout, ?_⟩
  rw [getD_map_range _ _ _ _ (by decide), gradArr_entry _ _ _ _ _ _ (by decide),
    Fval_eq_specF32 _ _ _ _ _ _ cFunc_lenout cFunc_sz hden]
  norm_num [specNumGradEntryF32, specNumGradEntry, specNumGradEntryWith, specContribution,
    nudge, cFunc, cInput, cGradOut, cEps, roundTo24_pow24succ, range_one_eq]

/-- C1, amended: for every input `i` and flat index `k` (under the
preconditions: eps matches the inputs in shape and dtype, all dtypes are
in the supported floating-point set, and `func` is an elementwise-style
function whose outputs match `gradOutputs` in count and per-output size,
each output no larger than `eps[i]`), `CalculateNumericalGradient` returns
gradients whose entry `[i][k]` equals the sum over all outputs `j` of the
vector dot product of `((f nudged by +f32(eps[i][k])) - (f nudged by
-f32(eps[i][k]))) / (2 * eps[i][k])` against `gradOutputs[j]`, starting
from a zero accumulator — where `f32` is rounding to binary32 precision
(the nudge passes through `static_cast<float>`; the denominator uses the
exact eps value). -/
theorem numericalGradient_matches_f32_central_difference
    (func : List Arr → List Arr) (inputs gos eps : List Arr) (i k : Nat)
    (hmatch : List.Forall₂ (fun a e => a.shape = e.shape ∧ a.dtype = e.dtype) inputs eps)
    (hdtin : ∀ a ∈ inputs, a.dtype ≠ Dtype.nonFloat)
    (houtdt : ∀ xs y, y ∈ func xs → y.dtype ≠ Dtype.nonFloat)
    (hlenout : ∀ xs, (func xs).length = gos.length)
    (hsz : ∀ xs j, j < gos.length →
      ((func xs).getD j default).data.length = (gos.getD j default).data.length)
    (hden : ∀ j, j < gos.length →
      (gos.getD j default).data.length ≤ (eps.getD i default).data.length)
    (hik : i < inputs.length) (hk : k < (inputs.getD i default).data.length) :
    ∃ grads, CalculateNumericalGradient func inputs gos eps = Except.ok grads ∧
      (grads.getD i default).data.getD k 0 = specNumGradEntryF32 func inputs gos eps i k := by
  refine ⟨_, CNG_ok func inputs gos eps hmatch hdtin houtdt hlenout, ?_⟩
  rw [getD_map_range _ _ _ _ hik, gradArr_entry _ _ _ _ _ _ hk,
    Fval_eq_specF32 _ _ _ _ _ _ hlenout hsz hden]

/-- Witness for the amended C1 at a concrete instance (`eps = 1`). -/
theorem numericalGradient_matches_f32_central_difference_witness :
    ∃ grads, CalculateNumericalGradient cFunc [cInput] [cGradOut] [cEpsOne] = Except.ok grads ∧
      (grads.getD 0 default).data.getD 0 0 =
        specNumGradEntryF32 cFunc [cInput] [cGradOut] [cEpsOne] 0 0 :=
  numericalGradient_matches_f32_central_difference cFunc [cInput] [cGradOut] [cEpsOne] 0 0
    (List.Forall₂.cons ⟨rfl, rfl⟩ List.Forall₂.nil) (by decide) cFunc_outdt cFunc_lenout
    cFunc_sz
    (fun j hj => by
      have hj0 : j = 0 := Nat.lt_one_iff.mp (by simpa using hj)
      subst hj0
      exact le_refl _)
    (by decide) (by decide)

/-! ### Claim C2 -/

/-- C2: when the eps list has the wrong length, or some `eps[i]` differs
from `inputs[i]` in shape or dtype, `CalculateNumericalGradient` raises an
invalid-argument `XchainerError` whose message does not depend on `func`;
in particular (the embedding being pure) the result is the same for every
`func`, which is the observable content of "`func` is never invoked and no
partial work is performed". -/
theorem eps_validation_precedes_func (inputs gos eps : List Arr)
    (h : eps.length ≠ inputs.length ∨
      (eps.length = inputs.length ∧ ∃ i, i < inputs.length ∧
        ((inputs.getD i default).shape ≠ (eps.getD i default).shape ∨
         (inputs.getD i default).dtype ≠ (eps.getD i default).dtype))) :
    ∃ msg, ∀ func : List Arr → List Arr,
      CalculateNumericalGradient func inputs gos eps =
        Except.error (Err.xchainerError msg) := by
  rcases h with h | ⟨hlen, hex⟩
  · refine ⟨"Invalid number of eps arrays", fun func => ?_⟩
    rw [CalculateNumericalGradient]
    simp [h, throwErr, bindErr]
  · obtain ⟨msg, hval⟩ := validateEps_err inputs eps hlen.symm hex
    refine ⟨msg, fun func => ?_⟩
    rw [CalculateNumericalGradient]
    simp [hlen, hval, bindErr]

/-- Witness for C2: one input but an empty eps list. -/
theorem eps_validation_precedes_func_witness :
    ∃ msg, ∀ func : List Arr → List Arr,
      CalculateNumericalGradient func [cInput] [cGradOut] [] =
        Except.error (Err.xchainerError msg) :=
  eps_validation_precedes_func [cInput] [cGradOut] [] (Or.inl (by decide))

/-! ### Claim C3 -/

/-- A one-element float32 input that carries a graph-node reference. -/
def cNodeInput : Arr := ⟨[1], Dtype.float32, [1], some 0⟩

/-- C3 fails on the code: the perturbed copy that the evaluator hands to
`func` retains the original input's graph-node reference (the source's own
TODO at gradient_check.cc:175-176 records that the copies "are connected
with the computational graph").  With `func` the identity, the array
returned from the perturbed evaluation carries the very node of the
original input, so the evaluation is not free of graph linkage to the
caller's arrays. -/
theorem perturbed_copy_retains_graph_node :
    evalPerturbed (fun xs => xs) [cNodeInput] Dtype.float32 0 0 1 1 =
      Except.ok [⟨[1], Dtype.float32, [2], some 0⟩] ∧
    (⟨[1], Dtype.float32, [2], some 0⟩ : Arr).node = cNodeInput.node ∧
    cNodeInput.node ≠ none := by
  refine ⟨?_, rfl, by decide⟩
  rw [evalPerturbed_ok _ _ _ _ _ _ _ (by decide)]
  norm_num [nudge, cNodeInput, roundTo24_one]

/-! ### Claims C4 and C5 -/

theorem Identity_length (l : List Arr) : (Identity l).length = l.length := by
  simp [Identity]

theorem derefAll_map_some : ∀ l : List Arr, derefAll (l.map some) = Except.ok l := by
  intro l
  induction l with
  | nil => rfl
  | cons a t ih => rw [List.map_cons, derefAll, ih, bindOk]; rfl

theorem compareLoop_all_pass (atol rtol : ℚ) :
    ∀ bs ns : List Arr,
      (∀ i, i < bs.length →
        AllCloseQ (bs.getD i default) (ns.getD i default) atol rtol = true) →
      compareLoop atol rtol bs ns = Except.ok () := by
  intro bs
  induction bs with
  | nil => intro ns _; rfl
  | cons b bt ih =>
    intro ns h
    rcases ns with _ | ⟨n, nt⟩
    · rfl
    have hb := h 0 (by simp)
    simp only [List.getD_cons_zero] at hb
    rw [compareLoop, if_pos hb]
    exact ih nt (fun i hi => by simpa using h (i + 1) (by simpa using hi))

theorem compareLoop_some_fail (atol rtol : ℚ) :
    ∀ bs ns : List Arr, bs.length = ns.length →
      (∃ i, i < bs.length ∧
        AllCloseQ (bs.getD i default) (ns.getD i default) atol rtol = false) →
      compareLoop atol rtol bs ns = Except.error (Err.assertionError "too large errors") := by
  intro bs
  induction bs with
  | nil =>
    intro ns _ h
    obtain ⟨i, hi, _⟩ := h
    exact absurd hi (by simp)
  | cons b bt ih =>
    intro ns hlen h
    rcases ns with _ | ⟨n, nt⟩
    · exact absurd hlen (by simp)
    by_cases hb : AllCloseQ b n atol rtol = true
    · rw [compareLoop, if_pos hb]
      obtain ⟨i, hi, hfail⟩ := h
      rcases i with _ | i
      · simp only [List.getD_cons_zero] at hfail
        rw [hb] at hfail
        exact absurd hfail (by simp)
      · exact ih nt (by simpa using hlen) ⟨i, by simpa using hi, by simpa using hfail⟩
    · rw [compareLoop, if_neg hb]

/-- C4: once the analytic gradients are populated (abstract engine) and
the numerical gradients computed, `CheckBackwardComputation` raises the
assertion-style error `"too large errors"` exactly when some input fails
the elementwise atol/rtol closeness predicate against its numerical
gradient (the loop raises at the first failing input, which is
observationally the same error), and returns `()` — no success value —
when every input passes. -/
theorem checkBackward_raises_iff_tolerance_exceeded
    (engine : List Arr → List Arr → List (Option Arr)) (func : List Arr → List Arr)
    (inputs gos eps : List Arr) (atol rtol : ℚ) (bgrads ngrads : List Arr)
    (hlen : (func inputs).length = gos.length)
    (heng : engine inputs gos = bgrads.map some)
    (hcng : CalculateNumericalGradient func inputs gos eps = Except.ok ngrads)
    (hbl : bgrads.length = ngrads.length) :
    (CheckBackwardComputation engine func inputs gos eps atol rtol =
        Except.error (Err.assertionError "too large errors") ↔
      ∃ i, i < bgrads.length ∧
        AllCloseQ (bgrads.getD i default) (ngrads.getD i default) atol rtol = false) ∧
    ((∀ i, i < bgrads.length →
        AllCloseQ (bgrads.getD i default) (ngrads.getD i default) atol rtol = true) →
      CheckBackwardComputation engine func inputs gos eps atol rtol = Except.ok ()) := by
  have hred : CheckBackwardComputation engine func inputs gos eps atol rtol =
      compareLoop atol rtol bgrads ngrads := by
    rw [CheckBackwardComputation]
    have hil : (Identity (func inputs)).length = gos.length := by
      rw [Identity_length]; exact hlen
    simp only [hil, ne_eq, not_true_eq_false, if_false, reduceIte, heng,
      derefAll_map_some, bindOk, hcng]
    rfl
  constructor
  · rw [hred]
    constructor
    · intro h
      by_contra hno
      push_neg at hno
      have hall : ∀ i, i < bgrads.length →
          AllCloseQ (bgrads.getD i default) (ngrads.getD i default) atol rtol = true := by
        intro i hi
        have := hno i hi
        revert this
        cases AllCloseQ (bgrads.getD i default) (ngrads.getD i default) atol rtol <;> simp
      rw [compareLoop_all_pass atol rtol bgrads ngrads hall] at h
      exact Except.noConfusion h
    · exact compareLoop_some_fail atol rtol bgrads ngrads hbl
  · intro hall
    rw [hred]
    exact compareLoop_all_pass atol rtol bgrads ngrads hall

/-- Witness for C4: a passing concrete instance (the engine returns the
exact analytic gradient `[3]`, which is also the numerical gradient), via
the theorem's "every input passes" direction. -/
theorem checkBackward_raises_iff_tolerance_exceeded_witness :
    CheckBackwardComputation (fun _ _ => [some cGradOut]) cFunc [cInput] [cGradOut] [cEpsOne]
      1 1 = Except.ok () := by
  have hmatch : List.Forall₂ (fun a e => a.shape = e.shape ∧ a.dtype = e.dtype)
      [cInput] [cEpsOne] := List.Forall₂.cons ⟨rfl, rfl⟩ List.Forall₂.nil
  refine (checkBackward_raises_iff_tolerance_exceeded (fun _ _ => [some cGradOut]) cFunc
    [cInput] [cGradOut] [cEpsOne] 1 1 [cGradOut]
    ((List.range ([cInput] : List Arr).length).map (gradArr cFunc [cInput] [cGradOut] [cEpsOne]))
    rfl rfl (CNG_ok cFunc [cInput] [cGradOut] [cEpsOne] hmatch (by decide) cFunc_outdt
      cFunc_lenout) (by simp)).2 ?_
  intro i hi
  have hi0 : i = 0 := Nat.lt_one_iff.mp (by simpa using hi)
  subst hi0
  norm_num [gradArr, setStep, Fval, contribSum, codeContrib, dotSpec, denomAt, epsAt, ysm,
    nudge, subArr, divArr, Subtract, Divide, EmptyLike, ZerosLike, Arr.totalSize, mulArr,
    FullLike, AllCloseQ, cFunc, cInput, cGradOut, cEpsOne, roundTo24_one, range_one_eq]

/-- C5: when the number of outputs produced by `func` differs from the
number of supplied output gradients, `CheckBackwardComputation` fails with
the `std::invalid_argument` condition — for every differentiation engine
and every eps set (even an invalid one), i.e. before the engine is
consulted and before any numerical evaluation. -/
theorem checkBackward_output_count_mismatch_eager
    (engine : List Arr → List Arr → List (Option Arr)) (func : List Arr → List Arr)
    (inputs gos eps : List Arr) (atol rtol : ℚ)
    (h : (func inputs).length ≠ gos.length) :
    CheckBackwardComputation engine func inputs gos eps atol rtol =
      Except.error (Err.invalidArgument
        "Number of given output gradients does not match the actual number of outputs") := by
  rw [CheckBackwardComputation]
  have hil : (Identity (func inputs)).length ≠ gos.length := by
    rw [Identity_length]; exact h
  simp [hil, throwErr, bindErr]

/-- Witness for C5: one output against an empty grad-outputs list, with an
empty (invalid) eps set and an arbitrary engine. -/
theorem checkBackward_output_count_mismatch_eager_witness :
    CheckBackwardComputation (fun _ _ => []) cFunc [cInput] [] [] 0 0 =
      Except.error (Err.invalidArgument
        "Number of given output gradients does not match the actual number of outputs") :=
  checkBackward_output_count_mismatch_eager (fun _ _ => []) cFunc [cInput] [] [] 0 0
    (by decide)

/-! ### Claim C6 -/

/-- C6: for every array of a supported dtype, `Norm(x)` is the square root
of `Sum(x * x)` (the sum of the elementwise self-product), tagged with
`x`'s dtype; and `VectorDot(x, y)` is `Sum` of the elementwise product of
`x` and `y`. -/
theorem norm_and_vectorDot_formulas (x : Arr) (hx : x.dtype ≠ Dtype.nonFloat) :
    Norm x = Except.ok (Real.sqrt ((dotSpec x x : ℚ) : ℝ), x.dtype) ∧
    ∀ y : Arr, VectorDot x y = Except.ok (dotSpec x y) := by
  constructor
  · have hx2 : (mulArr x x).dtype ≠ Dtype.nonFloat := hx
    rw [Norm, Sum_ok _ hx2]
    rfl
  · exact fun y => VectorDot_ok x y hx

/-- A two-element float64 array with values 3 and 4. -/
def cVec : Arr := ⟨[2], Dtype.float64, [3, 4], none⟩

/-- Witness for C6 at `x = [3, 4]`: the self-dot is 25, so the norm is
`sqrt 25` tagged float64 and the self-dot-product is 25. -/
theorem norm_and_vectorDot_formulas_witness :
    dotSpec cVec cVec = 25 ∧
    Norm cVec = Except.ok (Real.sqrt ((dotSpec cVec cVec : ℚ) : ℝ), Dtype.float64) ∧
    VectorDot cVec cVec = Except.ok 25 := by
  refine ⟨by norm_num [dotSpec, cVec], (norm_and_vectorDot_formulas cVec (by decide)).1, ?_⟩
  rw [(norm_and_vectorDot_formulas cVec (by decide)).2 cVec]
  norm_num [dotSpec, cVec]

/-! ### Claim C7 -/

/-- C7: for operands sharing shape, dtype and total element count,
`operator-` and `operator/` produce an output of the operands' shape and
dtype whose element at every flat index is the elementwise difference
(resp. quotient). -/
theorem subtract_divide_elementwise (lhs rhs : Arr)
    (hs : lhs.shape = rhs.shape) (hd : lhs.dtype = rhs.dtype)
    (hl : lhs.data.length = rhs.data.length) :
    (subArr lhs rhs).shape = lhs.shape ∧ (subArr lhs rhs).dtype = lhs.dtype ∧
    (subArr lhs rhs).data.length = lhs.data.length ∧
    (∀ i, i < lhs.data.length →
      (subArr lhs rhs).data.getD i 0 = lhs.data.getD i 0 - rhs.data.getD i 0) ∧
    (divArr lhs rhs).shape = lhs.shape ∧ (divArr lhs rhs).dtype = lhs.dtype ∧
    (divArr lhs rhs).data.length = lhs.data.length ∧
    (∀ i, i < lhs.data.length →
      (divArr lhs rhs).data.getD i 0 = lhs.data.getD i 0 / rhs.data.getD i 0) := by
  have hdrop : lhs.data.length ⊓ rhs.data.length = lhs.data.length := by
    rw [hl, Nat.min_self]
  have hsub : (subArr lhs rhs).data = List.zipWith (· - ·) lhs.data rhs.data := by
    simp [subArr, Subtract, EmptyLike, hdrop, List.drop_replicate]
  have hdiv : (divArr lhs rhs).data = List.zipWith (· / ·) lhs.data rhs.data := by
    simp [divArr, Divide, EmptyLike, hdrop, List.drop_replicate]
  have hlsub : (subArr lhs rhs).data.length = lhs.data.length := by
    rw [hsub, List.length_zipWith, hdrop]
  have hldiv : (divArr lhs rhs).data.length = lhs.data.length := by
    rw [hdiv, List.length_zipWith, hdrop]
  exact ⟨rfl, rfl, hlsub,
    fun i hi => by rw [hsub, getD_zipWith _ _ _ _ _ hi (hl ▸ hi)],
    rfl, rfl, hldiv,
    fun i hi => by rw [hdiv, getD_zipWith _ _ _ _ _ hi (hl ▸ hi)]⟩

/-- A two-element float64 array with values 10 and 4. -/
def cVec2 : Arr := ⟨[2], Dtype.float64, [10, 4], none⟩

/-- Witness for C7 at `[10, 4]` and `[3, 4]`. -/
theorem subtract_divide_elementwise_witness :
    (subArr cVec2 cVec).shape = cVec2.shape ∧ (subArr cVec2 cVec).dtype = cVec2.dtype ∧
    (subArr cVec2 cVec).data.length = cVec2.data.length ∧
    (∀ i, i < cVec2.data.length →
      (subArr cVec2 cVec).data.getD i 0 = cVec2.data.getD i 0 - cVec.data.getD i 0) ∧
    (divArr cVec2 cVec).shape = cVec2.shape ∧ (divArr cVec2 cVec).dtype = cVec2.dtype ∧
    (divArr cVec2 cVec).data.length = cVec2.data.length ∧
    (∀ i, i < cVec2.data.length →
      (divArr cVec2 cVec).data.getD i 0 = cVec2.data.getD i 0 / cVec.data.getD i 0) :=
  subtract_divide_elementwise cVec2 cVec rfl rfl rfl

/-! ### Claim C8 -/

/-- C8: for every array of a supported dtype, every flat index within
bounds and every value, `Set` followed by `Get` at the same index returns
the value just stored.  In this embedding each dtype's value set is
idealized as the full rational field, so every modelled value is
"representable in the array's dtype". -/
theorem get_set_roundtrip (a : Arr) (i : Nat) (v : ℚ)
    (hdt : a.dtype ≠ Dtype.nonFloat) (hi : i < a.data.length) :
    (Set a i v).bind (fun a2 => Get a2 i) = Except.ok v := by
  rw [Set_ok _ _ _ hdt]
  show Get { a with data := a.data.set i v } i = Except.ok v
  rw [Get_ok { a with data := a.data.set i v } i hdt]
  show Except.ok ((a.data.set i v).getD i 0) = Except.ok v
  rw [getD_set_self _ _ _ _ hi]

/-- Witness for C8 at `[3, 4]`, index 1, value 7. -/
theorem get_set_roundtrip_witness :
    (Set cVec 1 7).bind (fun a2 => Get a2 1) = Except.ok 7 :=
  get_set_roundtrip cVec 1 7 (by decide) (by decide)

/-! ### Claim C9 -/

/-- C9: `Get`, `Set` and `Sum` on an array whose dtype lies outside the
supported floating-point set fail with the fatal assertion in every case;
on a supported dtype the assertion branch is unreachable — all three
return a success value. -/
theorem unsupported_dtype_assertion (a : Arr) (i : Nat) (v : ℚ) :
    (a.dtype = Dtype.nonFloat →
      Get a i = Except.error Err.fatalAssertion ∧
      Set a i v = Except.error Err.fatalAssertion ∧
      Sum a = Except.error Err.fatalAssertion) ∧
    (a.dtype ≠ Dtype.nonFloat →
      (∃ q, Get a i = Except.ok q) ∧ (∃ a2, Set a i v = Except.ok a2) ∧
      (∃ s, Sum a = Except.ok s)) := by
  constructor
  · intro h
    exact ⟨by simp [Get, h], by simp [Set, h], by simp [Sum, h]⟩
  · intro h
    exact ⟨⟨_, Get_ok a i h⟩, ⟨_, Set_ok a i v h⟩, ⟨_, Sum_ok a h⟩⟩

/-- A one-element array of an unsupported (non-floating) dtype. -/
def cBad : Arr := ⟨[1], Dtype.nonFloat, [0], none⟩

/-- Witness for C9: the assertion fires on the unsupported dtype and `Get`
succeeds on a supported one. -/
theorem unsupported_dtype_assertion_witness :
    Get cBad 0 = Except.error Err.fatalAssertion ∧
    (∃ s, Sum cVec = Except.ok s) :=
  ⟨((unsupported_dtype_assertion cBad 0 0).1 rfl).1,
   ((unsupported_dtype_assertion cVec 0 0).2 (by decide)).2.2⟩

/-! ### Claim C10 -/

/-- C10: the perturbation the evaluator adds to the targeted element is
`eps` first converted to single precision (`static_cast<float>`, modelled
as round-to-nearest-even to a 24-bit significand) and then multiplied by
the sign multiplier — so for a float64 input whose eps value is not
binary32-representable, the input set handed to `func` is the one nudged
by the rounded eps, which differs from the set nudged by the exact eps. -/
theorem perturbation_rounded_to_float32
    (func : List Arr → List Arr) (inputs : List Arr) (dt : Dtype) (i k : Nat) (e m : ℚ)
    (hdt : (inputs.getD i default).dtype = Dtype.float64)
    (hi : i < inputs.length) (hk : k < (inputs.getD i default).data.length)
    (hm : m ≠ 0) (hr : roundTo 24 e ≠ e) :
    evalPerturbed func inputs dt i k e m =
      Except.ok (func (nudge inputs i k (roundTo 24 e * m))) ∧
    nudge inputs i k (roundTo 24 e * m) ≠ nudge inputs i k (e * m) := by
  constructor
  · exact evalPerturbed_ok func inputs dt i k e m
      (by rw [hdt]; exact fun h => Dtype.noConfusion h)
  · intro hEq
    have h1 : (nudge inputs i k (roundTo 24 e * m)).getD i default =
        (nudge inputs i k (e * m)).getD i default := by rw [hEq]
    rw [nudge, nudge, getD_set_self _ _ _ _ hi, getD_set_self _ _ _ _ hi] at h1
    have h2 := congrArg Arr.data h1
    simp only at h2
    have h3 := congrArg (fun l => l.getD k (0 : ℚ)) h2
    simp only [getD_set_self _ _ _ _ hk] at h3
    exact hr (mul_right_cancel₀ hm (add_left_cancel h3))

/-- Witness for C10: float64 input, `eps = 2 ^ 24 + 1`, multiplier 1. -/
theorem perturbation_rounded_to_float32_witness :
    evalPerturbed cFunc [cInput] Dtype.float64 0 0 16777217 1 =
      Except.ok (cFunc (nudge [cInput] 0 0 (roundTo 24 16777217 * 1))) ∧
    nudge [cInput] 0 0 (roundTo 24 16777217 * 1) ≠ nudge [cInput] 0 0 (16777217 * 1) :=
  perturbation_rounded_to_float32 cFunc [cInput] Dtype.float64 0 0 16777217 1 rfl
    (by decide) (by decide) (by norm_num)
    (by rw [roundTo24_pow24succ]; norm_num)

end GradientCheck
